import Mathlib

/-!
Verification of the cocotb support module (`xeda/cocotb.py`): the
environment-table derivation `Cocotb.env`, the settings normalization
`CocotbSettings.str_to_list`, and the result aggregation
`Cocotb._results` / `Cocotb.add_results`.

The Python code is shallowly embedded: strings are `String`, optional
values are `Option`, Python dicts (which preserve insertion order and
update keys in place) are association lists with `setKey` / `getKey`,
and the process environment / filesystem are explicit parameters.
Python truthiness of optional strings, of `tb.top` and of lists is made
explicit by `optStrTruthy`, `topTruthy` and `List.isEmpty`.
POSIX path behavior (`os.sep = "/"`, `os.pathsep = ":"`) is used, as on
the platforms the tool targets.
-/

/-- Values stored in an environment table or a flow-results dict:
the Python code stores strings, ints, floats (modelled as rationals),
booleans and `None`. -/
inductive RVal where
  | str (s : String)
  | int (n : Int)
  | rat (q : ℚ)
  | bool (b : Bool)
  | pynone
deriving DecidableEq, Repr

/-- Python `d[k] = v` on a dict modelled as an association list: update the
first binding of `k` in place, else append a fresh binding at the end. -/
def setKey : List (String × RVal) → String → RVal → List (String × RVal)
  | [], k, v => [(k, v)]
  | p :: d, k, v => if p.1 == k then (k, v) :: d else p :: setKey d k v

/-- Python `d.get(k)` on a dict modelled as an association list. -/
def getKey : List (String × RVal) → String → Option RVal
  | [], _ => Option.none
  | p :: d, k => if p.1 == k then some p.2 else getKey d k

/-- Python `s.split(sep)` for a one-character separator, on the character
list: splitting the empty list yields `[[]]`, as in Python. -/
def splitCharList (c : Char) : List Char → List (List Char)
  | [] => [[]]
  | x :: xs =>
    match splitCharList c xs with
    | [] => [[]]
    | y :: ys => if x == c then [] :: y :: ys else (x :: y) :: ys

/-- Python `s.split(c)` for a one-character separator `c`. -/
def pySplit (s : String) (c : Char) : List String :=
  (splitCharList c s.data).map String.mk

/-- Python `sep.join(l)`. -/
def joinSep (sep : String) : List String → String
  | [] => ""
  | [x] => x
  | x :: y :: xs => x ++ sep ++ joinSep sep (y :: xs)

/-- Python `s.strip()`: drop leading and trailing whitespace. -/
def pyStrip (s : String) : String :=
  String.mk (((s.data.dropWhile Char.isWhitespace).reverse.dropWhile
    Char.isWhitespace).reverse)

/-- `os.path.isabs` on POSIX: the path starts with `/`. -/
def pyIsAbs (s : String) : Bool := s.data.headD ' ' == '/'

/-- `os.path.join(a, b)` on POSIX for one extra component. -/
def pathJoin (a b : String) : String :=
  if pyIsAbs b then b
  else if a == "" || a.data.getLastD ' ' == '/' then a ++ b
  else a ++ "/" ++ b

/-- The non-trivial components of a pure POSIX path, as `pathlib` parses
them: empty components and `.` components are dropped. -/
def pathParts (p : String) : List String :=
  (pySplit p '/').filter (fun c => c != "" && c != ".")

/-- `pathlib.PurePosixPath(p).name`: the final component. -/
def pathName (p : String) : String := (pathParts p).getLastD ""

/-- The stem of a file name, as `pathlib` computes it: everything before
the last dot, unless that dot is the first or the last character. -/
def stemOfName (nm : String) : String :=
  let cs := nm.data
  let dotIdxs := (List.range cs.length).filter (fun i => cs.getD i ' ' == '.')
  match dotIdxs.getLast? with
  | some i => if 0 < i && i + 1 < cs.length then String.mk (cs.take i) else nm
  | _ => nm

/-- `pathlib.PurePosixPath(p).stem`. -/
def pathStem (p : String) : String := stemOfName (pathName p)

/-- `str(pathlib.PurePosixPath(p).parent)`: drop the final component;
the parent of a single relative component is `"."`. -/
def pathParent (p : String) : String :=
  let par := (pathParts p).dropLast
  if pyIsAbs p then "/" ++ joinSep "/" par
  else if par.isEmpty then "." else joinSep "/" par

/-- The argument of the `testcase` / `gpi_extra` validator: the value may
arrive as a plain string or as a list of strings. -/
inductive StrOrList where
  | str (s : String)
  | list (l : List String)
deriving DecidableEq, Repr

/-- `CocotbSettings.str_to_list`: a string input is split on commas and
each piece is stripped; any other input is returned unchanged. -/
def str_to_list : StrOrList → List String
  | StrOrList.str s => (pySplit s ',').map pyStrip
  | StrOrList.list l => l

/-- The type tag of a design source; only membership in the cocotb kind
matters here. -/
inductive SourceType where
  | cocotb
  | other
deriving DecidableEq, Repr

/-- One entry of `design.tb.sources`: a file path and its type tag. -/
structure SourceRef where
  file : String
  stype : SourceType
deriving DecidableEq, Repr

/-- `design.tb.cocotb`: the cocotb-specific testbench settings. -/
structure CocotbTb where
  module : Option String
  toplevel : Option String
  testcase : List String
deriving DecidableEq, Repr

/-- `design.tb.top`: absent, a single string, or a sequence of strings. -/
inductive TopSpec where
  | unset
  | str (s : String)
  | seq (l : List String)
deriving DecidableEq, Repr

/-- The testbench part of the design. -/
structure TbModel where
  top : TopSpec
  sources : List SourceRef
  cocotb : Option CocotbTb
deriving DecidableEq, Repr

/-- The RTL part of the design (only its `top` is read here). -/
structure RtlModel where
  top : Option String
deriving DecidableEq, Repr

/-- The design metadata read by `Cocotb.env`. -/
structure Design where
  name : String
  root_path : String
  rtl : RtlModel
  tb : TbModel
deriving DecidableEq, Repr

/-- Python truthiness of an optional string: `None` and `""` are falsy. -/
def optStrTruthy : Option String → Bool
  | some s => s != ""
  | _ => false

/-- Python truthiness of `tb.top`: `None`, `""` and `()` are falsy. -/
def topTruthy : TopSpec → Bool
  | TopSpec.unset => false
  | TopSpec.str s => s != ""
  | TopSpec.seq l => !l.isEmpty

/-- The first element of a truthy `tb.top`: the string itself when it is
a single string, else the first element of the sequence. -/
def topFirst : TopSpec → String
  | TopSpec.str s => s
  | TopSpec.seq l => l.getD 0 ""
  | TopSpec.unset => ""

/-- The `CocotbSettings` fields that `Cocotb.env` and the result
aggregation read. -/
structure CocotbSettings where
  coverage : Bool
  reduced_log_fmt : Bool
  results_xml : String
  resolve_x : String
  testcase : List String
  random_seed : Option Int
  gpi_extra : List String
deriving DecidableEq, Repr

/-- Modelled from the spec: `design.sources_of_type(SourceType.Cocotb,
rtl=False, tb=True)` lives in the external Design model, which is not part
of this excerpt. The spec describes the result used here as the last entry
of the testbench's sources whose type tag marks it as a cocotb source,
`None` if no such source exists. -/
def topCocotbSource (d : Design) : Option String :=
  ((d.tb.sources.filter (fun s => s.stype == SourceType.cocotb)).getLast?).map
    SourceRef.file

/-- Truthiness of `design.tb.cocotb.module` (an optional string). -/
def moduleTruthy (ctb : CocotbTb) : Bool := optStrTruthy ctb.module

/-- The directory put on the search path when `tb.cocotb.module` is set
(lines 126-133): the directory portion of the module name joined with
`os.sep`, made absolute against `design.root_path` when relative; when the
module name has no directory portion, `design.root_path` itself. -/
def moduleDirOf (d : Design) (m : String) : String :=
  let parts := pySplit m '/'
  if parts.length > 1 then
    let mp := joinSep "/" parts.dropLast
    if pyIsAbs mp then mp else pathJoin d.root_path mp
  else d.root_path

/-- The `MODULE` value (lines 124-136): the last `/`-segment of
`tb.cocotb.module` when that is truthy, else the stem of the top cocotb
source when one exists, else `None`. -/
def cocoModule (d : Design) (ctb : CocotbTb) : Option String :=
  if moduleTruthy ctb then some ((pySplit (ctb.module.getD "") '/').getLastD "")
  else (topCocotbSource d).map pathStem

/-- The current `PYTHONPATH` entries (lines 120-123): split on
`os.pathsep` when the variable is present and non-empty. -/
def currentPyPathSplit : Option String → List String
  | some s => if s != "" then pySplit s ':' else []
  | _ => []

/-- The search-path list `py_path` (lines 120-138): the current
`PYTHONPATH` split on `os.pathsep` when truthy, then the module directory
when `tb.cocotb.module` is truthy, then the parent directory of the top
cocotb source when one exists. -/
def pyPathOf (pp : Option String) (d : Design) (ctb : CocotbTb) : List String :=
  currentPyPathSplit pp ++
  (if moduleTruthy ctb then [moduleDirOf d (ctb.module.getD "")] else []) ++
  (match topCocotbSource d with
   | some f => [pathParent f]
   | _ => [])

/-- The `TOPLEVEL` value (lines 139-141): `tb.cocotb.toplevel`, replaced
by the first element of `tb.top` when `tb.cocotb.toplevel` is falsy and
`tb.top` is truthy. -/
def toplevelOf (d : Design) (ctb : CocotbTb) : Option String :=
  if !optStrTruthy ctb.toplevel && topTruthy d.tb.top
  then some (topFirst d.tb.top)
  else ctb.toplevel

/-- An optional string as a dict value: `None` or the string itself. -/
def optVal : Option String → RVal
  | some s => RVal.str s
  | _ => RVal.pynone

/-- The environment table built on lines 142-158, with the conditional
entries appended in source order. -/
def envTable (cfg : CocotbSettings) (pp : Option String) (d : Design)
    (ctb : CocotbTb) : List (String × RVal) :=
  [("MODULE", optVal (cocoModule d ctb)),
   ("TOPLEVEL", optVal (toplevelOf d ctb)),
   ("COCOTB_REDUCED_LOG_FMT", RVal.int (if cfg.reduced_log_fmt then 1 else 0)),
   ("PYTHONPATH", RVal.str (joinSep ":" (pyPathOf pp d ctb))),
   ("COCOTB_RESULTS_FILE", RVal.str cfg.results_xml),
   ("COCOTB_RESOLVE_X", RVal.str cfg.resolve_x)]
  ++ (if cfg.coverage then [("COVERAGE", RVal.int 1)] else [])
  ++ (let tcs := if !cfg.testcase.isEmpty then cfg.testcase else ctb.testcase
      if !tcs.isEmpty then [("TESTCASE", RVal.str (joinSep "," tcs))] else [])
  ++ (match cfg.random_seed with
      | some n => [("RANDOM_SEED", RVal.int n)]
      | _ => [])
  ++ (if !cfg.gpi_extra.isEmpty
      then [("GPI_EXTRA", RVal.str (joinSep "," cfg.gpi_extra))] else [])

/-- The errors `Cocotb.env` can raise (both `ValueError` in Python). -/
inductive EnvErr where
  | emptySources
  | noTop
deriving DecidableEq, Repr

/-- Line 113: when `tb.top` is falsy, `rtl.top` is written into `tb.top`
as a one-element sequence; otherwise the design is left unchanged. -/
def resolveTbTop (d : Design) : Design :=
  if topTruthy d.tb.top then d
  else { d with tb := { d.tb with top := TopSpec.seq [d.rtl.top.getD ""] } }

/-- `Cocotb.env` (lines 103-160). `pp` is `os.environ.get("PYTHONPATH")`.
The returned pair carries the environment table and the design as it is
after the call (line 113 may have assigned `tb.top`). -/
def env (cfg : CocotbSettings) (pp : Option String) (d : Design) :
    Except EnvErr (List (String × RVal) × Design) :=
  match d.tb.cocotb with
  | Option.none => Except.ok ([], d)
  | some ctb =>
    if d.tb.sources.isEmpty then Except.error EnvErr.emptySources
    else if !topTruthy d.tb.top && !optStrTruthy d.rtl.top then
      Except.error EnvErr.noTop
    else
      let d2 := resolveTbTop d
      Except.ok (envTable cfg pp d2 ctb, d2)

/-- One test-case record of a suite; an entry may be absent (`None`). -/
structure TestCaseRec where
  name : String
  classname : String
  time : Option ℚ
deriving DecidableEq, Repr

/-- One test suite: its own aggregate counters and its case entries. -/
structure TestSuite where
  tests : Nat
  errors : Nat
  failures : Nat
  skipped : Nat
  time : ℚ
  cases : List (Option TestCaseRec)
deriving DecidableEq, Repr

/-- The parsed report, as the spec describes the external representation:
report-level aggregate counters plus the suites themselves. The aggregator
reads only the report-level counters. -/
structure TestReport where
  tests : Nat
  errors : Nat
  failures : Nat
  skipped : Nat
  time : ℚ
  suites : List TestSuite
deriving DecidableEq, Repr

/-- The report a fresh `JUnitXml()` denotes: no suites, all counters zero
(the spec: a missing results file "yields a report with tests=0"). -/
def emptyReport : TestReport := ⟨0, 0, 0, 0, 0, []⟩

/-- A malformed report file (raised by the external XML parser). -/
inductive ReportErr where
  | malformed
deriving DecidableEq, Repr

/-- `Cocotb._results` (lines 162-167): the filesystem together with the
external `JUnitXml.fromfile` parser is the map `fs`; a path with no file
yields the empty report, an existing file yields whatever parsing it
yields. -/
def loadReport (fs : String → Option (Except ReportErr TestReport))
    (path : String) : Except ReportErr TestReport :=
  match fs path with
  | Option.none => Except.ok emptyReport
  | some r => r

/-- `Cocotb.add_results` (lines 186-207): write the report's aggregate
counters under prefixed keys, set `success` to `False` exactly when the
run failed, and return the success flag. -/
def add_results (xml : TestReport) (flow_results : List (String × RVal))
    (pfx : String) : List (String × RVal) × Bool :=
  let fr := setKey flow_results (pfx ++ "tests") (RVal.int xml.tests)
  let fr := setKey fr (pfx ++ "errors") (RVal.int xml.errors)
  let fr := setKey fr (pfx ++ "failures") (RVal.int xml.failures)
  let fr := setKey fr (pfx ++ "skipped") (RVal.int xml.skipped)
  let fr := setKey fr (pfx ++ "time") (RVal.rat xml.time)
  let failed := (xml.tests == 0) || (xml.errors != 0) || (xml.failures != 0)
  let fr := if failed then setKey fr "success" (RVal.bool false) else fr
  (fr, !failed)

/-! ### Helper lemmas about dict update and string keys -/

theorem strApp_data (a b : String) : (a ++ b).data = a.data ++ b.data := by
  cases a
  cases b
  rfl

theorem strApp_right_inj (p a b : String) (h : p ++ a = p ++ b) : a = b := by
  have h2 : p.data ++ a.data = p.data ++ b.data := by
    rw [← strApp_data, ← strApp_data, h]
  have h3 := List.append_cancel_left h2
  cases a
  cases b
  exact congrArg String.mk h3

theorem strApp_pfx_ne (p a b : String) (h : a ≠ b) : p ++ a ≠ p ++ b :=
  fun he => h (strApp_right_inj p a b he)

theorem drop_of_append (q a b : List Char) (h : q ++ a = b) :
    b.drop (b.length - a.length) = a := by
  subst h
  rw [List.length_append, Nat.add_sub_cancel]
  exact List.drop_left q a

theorem strApp_ne (p a s : String)
    (h : s.data.drop (s.data.length - a.data.length) ≠ a.data) : p ++ a ≠ s := by
  intro he
  exact h (drop_of_append p.data a.data s.data (by rw [← strApp_data, he]))

theorem getKey_setKey_self (d : List (String × RVal)) (k : String) (v : RVal) :
    getKey (setKey d k v) k = some v := by
  induction d with
  | nil => simp [setKey, getKey]
  | cons p d ih =>
    by_cases h : p.1 = k
    · simp [setKey, getKey, beq_iff_eq, h]
    · simp [setKey, getKey, beq_iff_eq, h, ih]

theorem getKey_setKey_other (d : List (String × RVal)) (k k' : String) (v : RVal)
    (h : k ≠ k') : getKey (setKey d k v) k' = getKey d k' := by
  induction d with
  | nil => simp [setKey, getKey, beq_iff_eq, h]
  | cons p d ih =>
    by_cases hp : p.1 = k
    · simp [setKey, getKey, beq_iff_eq, hp, h]
    · simp [setKey, getKey, beq_iff_eq, hp, ih]

/-! ### Helper lemmas about `add_results` -/

theorem add_results_snd (xml : TestReport) (fr : List (String × RVal)) (pfx : String) :
    (add_results xml fr pfx).2 =
      !((xml.tests == 0) || (xml.errors != 0) || (xml.failures != 0)) := rfl

theorem add_results_tests (xml : TestReport) (fr : List (String × RVal)) (pfx : String) :
    getKey (add_results xml fr pfx).1 (pfx ++ "tests") = some (RVal.int xml.tests) := by
  show getKey (if _ then _ else _) _ = _
  split
  all_goals
    first
    | rw [getKey_setKey_other _ _ _ _ (Ne.symm (strApp_ne pfx "tests" "success" (by decide))),
        getKey_setKey_other _ _ _ _ (strApp_pfx_ne pfx "time" "tests" (by decide)),
        getKey_setKey_other _ _ _ _ (strApp_pfx_ne pfx "skipped" "tests" (by decide)),
        getKey_setKey_other _ _ _ _ (strApp_pfx_ne pfx "failures" "tests" (by decide)),
        getKey_setKey_other _ _ _ _ (strApp_pfx_ne pfx "errors" "tests" (by decide)),
        getKey_setKey_self]
    | rw [getKey_setKey_other _ _ _ _ (strApp_pfx_ne pfx "time" "tests" (by decide)),
        getKey_setKey_other _ _ _ _ (strApp_pfx_ne pfx "skipped" "tests" (by decide)),
        getKey_setKey_other _ _ _ _ (strApp_pfx_ne pfx "failures" "tests" (by decide)),
        getKey_setKey_other _ _ _ _ (strApp_pfx_ne pfx "errors" "tests" (by decide)),
        getKey_setKey_self]

theorem add_results_errors (xml : TestReport) (fr : List (String × RVal)) (pfx : String) :
    getKey (add_results xml fr pfx).1 (pfx ++ "errors") = some (RVal.int xml.errors) := by
  show getKey (if _ then _ else _) _ = _
  split
  all_goals
    first
    | rw [getKey_setKey_other _ _ _ _ (Ne.symm (strApp_ne pfx "errors" "success" (by decide))),
        getKey_setKey_other _ _ _ _ (strApp_pfx_ne pfx "time" "errors" (by decide)),
        getKey_setKey_other _ _ _ _ (strApp_pfx_ne pfx "skipped" "errors" (by decide)),
        getKey_setKey_other _ _ _ _ (strApp_pfx_ne pfx "failures" "errors" (by decide)),
        getKey_setKey_self]
    | rw [getKey_setKey_other _ _ _ _ (strApp_pfx_ne pfx "time" "errors" (by decide)),
        getKey_setKey_other _ _ _ _ (strApp_pfx_ne pfx "skipped" "errors" (by decide)),
        getKey_setKey_other _ _ _ _ (strApp_pfx_ne pfx "failures" "errors" (by decide)),
        getKey_setKey_self]

theorem add_results_failures (xml : TestReport) (fr : List (String × RVal)) (pfx : String) :
    getKey (add_results xml fr pfx).1 (pfx ++ "failures") = some (RVal.int xml.failures) := by
  show getKey (if _ then _ else _) _ = _
  split
  all_goals
    first
    | rw [getKey_setKey_other _ _ _ _ (Ne.symm (strApp_ne pfx "failures" "success" (by decide))),
        getKey_setKey_other _ _ _ _ (strApp_pfx_ne pfx "time" "failures" (by decide)),
        getKey_setKey_other _ _ _ _ (strApp_pfx_ne pfx "skipped" "failures" (by decide)),
        getKey_setKey_self]
    | rw [getKey_setKey_other _ _ _ _ (strApp_pfx_ne pfx "time" "failures" (by decide)),
        getKey_setKey_other _ _ _ _ (strApp_pfx_ne pfx "skipped" "failures" (by decide)),
        getKey_setKey_self]

theorem add_results_skipped (xml : TestReport) (fr : List (String × RVal)) (pfx : String) :
    getKey (add_results xml fr pfx).1 (pfx ++ "skipped") = some (RVal.int xml.skipped) := by
  show getKey (if _ then _ else _) _ = _
  split
  all_goals
    first
    | rw [getKey_setKey_other _ _ _ _ (Ne.symm (strApp_ne pfx "skipped" "success" (by decide))),
        getKey_setKey_other _ _ _ _ (strApp_pfx_ne pfx "time" "skipped" (by decide)),
        getKey_setKey_self]
    | rw [getKey_setKey_other _ _ _ _ (strApp_pfx_ne pfx "time" "skipped" (by decide)),
        getKey_setKey_self]

theorem add_results_time (xml : TestReport) (fr : List (String × RVal)) (pfx : String) :
    getKey (add_results xml fr pfx).1 (pfx ++ "time") = some (RVal.rat xml.time) := by
  show getKey (if _ then _ else _) _ = _
  split
  all_goals
    first
    | rw [getKey_setKey_other _ _ _ _ (Ne.symm (strApp_ne pfx "time" "success" (by decide))),
        getKey_setKey_self]
    | rw [getKey_setKey_self]

theorem add_results_success (xml : TestReport) (fr : List (String × RVal)) (pfx : String) :
    getKey (add_results xml fr pfx).1 "success" =
      if (add_results xml fr pfx).2 = true then getKey fr "success"
      else some (RVal.bool false) := by
  by_cases hf : ((xml.tests == 0) || (xml.errors != 0) || (xml.failures != 0)) = true
  · show getKey (if _ then _ else _) _ = _
    rw [if_pos hf, getKey_setKey_self, add_results_snd, hf]
    rfl
  · show getKey (if _ then _ else _) _ = _
    rw [if_neg hf, add_results_snd,
      getKey_setKey_other _ _ _ _ (strApp_ne pfx "time" "success" (by decide)),
      getKey_setKey_other _ _ _ _ (strApp_ne pfx "skipped" "success" (by decide)),
      getKey_setKey_other _ _ _ _ (strApp_ne pfx "failures" "success" (by decide)),
      getKey_setKey_other _ _ _ _ (strApp_ne pfx "errors" "success" (by decide)),
      getKey_setKey_other _ _ _ _ (strApp_ne pfx "tests" "success" (by decide))]
    simp only [Bool.not_eq_true] at hf
    rw [hf]
    rfl

/-! ### Helper lemmas about `resolveTbTop`, `envTable` and `env` -/

theorem resolveTbTop_name (d : Design) : (resolveTbTop d).name = d.name := by
  unfold resolveTbTop
  split <;> rfl

theorem resolveTbTop_root_path (d : Design) :
    (resolveTbTop d).root_path = d.root_path := by
  unfold resolveTbTop
  split <;> rfl

theorem resolveTbTop_rtl (d : Design) : (resolveTbTop d).rtl = d.rtl := by
  unfold resolveTbTop
  split <;> rfl

theorem resolveTbTop_sources (d : Design) :
    (resolveTbTop d).tb.sources = d.tb.sources := by
  unfold resolveTbTop
  split <;> rfl

theorem resolveTbTop_cocotb (d : Design) :
    (resolveTbTop d).tb.cocotb = d.tb.cocotb := by
  unfold resolveTbTop
  split <;> rfl

theorem resolveTbTop_top (d : Design) :
    (resolveTbTop d).tb.top =
      if topTruthy d.tb.top = true then d.tb.top
      else TopSpec.seq [d.rtl.top.getD ""] := by
  unfold resolveTbTop
  split <;> simp_all

theorem topCocotbSource_resolve (d : Design) :
    topCocotbSource (resolveTbTop d) = topCocotbSource d := by
  unfold topCocotbSource
  rw [resolveTbTop_sources]

theorem envTable_MODULE (cfg : CocotbSettings) (pp : Option String) (d : Design)
    (ctb : CocotbTb) :
    getKey (envTable cfg pp d ctb) "MODULE" = some (optVal (cocoModule d ctb)) := rfl

theorem envTable_TOPLEVEL (cfg : CocotbSettings) (pp : Option String) (d : Design)
    (ctb : CocotbTb) :
    getKey (envTable cfg pp d ctb) "TOPLEVEL" =
      some (optVal (toplevelOf d ctb)) := rfl

theorem envTable_PYTHONPATH (cfg : CocotbSettings) (pp : Option String) (d : Design)
    (ctb : CocotbTb) :
    getKey (envTable cfg pp d ctb) "PYTHONPATH" =
      some (RVal.str (joinSep ":" (pyPathOf pp d ctb))) := rfl

theorem env_ok (cfg : CocotbSettings) (pp : Option String) (d : Design)
    (ctb : CocotbTb) (h : d.tb.cocotb = some ctb) (hs : d.tb.sources ≠ [])
    (htop : topTruthy d.tb.top = true ∨ optStrTruthy d.rtl.top = true) :
    env cfg pp d =
      Except.ok (envTable cfg pp (resolveTbTop d) ctb, resolveTbTop d) := by
  have hs' : d.tb.sources.isEmpty = false := by
    cases hsl : d.tb.sources with
    | nil => exact absurd hsl hs
    | cons a l => rfl
  unfold env
  rw [h]
  rcases htop with h1 | h1 <;> simp [hs', h1]

theorem env_noTop (cfg : CocotbSettings) (pp : Option String) (d : Design)
    (ctb : CocotbTb) (h : d.tb.cocotb = some ctb) (hs : d.tb.sources ≠ [])
    (h1 : topTruthy d.tb.top = false) (h2 : optStrTruthy d.rtl.top = false) :
    env cfg pp d = Except.error EnvErr.noTop := by
  have hs' : d.tb.sources.isEmpty = false := by
    cases hsl : d.tb.sources with
    | nil => exact absurd hsl hs
    | cons a l => rfl
  unfold env
  rw [h]
  simp [hs', h1, h2]

/-- The claim's resolution rule for the simulation toplevel, stated the
spec's way: prefer the explicit `tb.cocotb.toplevel`; else the first
element of `tb.top` when that is set; else `rtl.top`. -/
def toplevelSpec (d : Design) (ctb : CocotbTb) : Option String :=
  if optStrTruthy ctb.toplevel then ctb.toplevel
  else if topTruthy d.tb.top then some (topFirst d.tb.top)
  else d.rtl.top

theorem toplevelOf_resolve (d : Design) (ctb : CocotbTb)
    (htop : topTruthy d.tb.top = true ∨ optStrTruthy d.rtl.top = true) :
    toplevelOf (resolveTbTop d) ctb = toplevelSpec d ctb := by
  by_cases h1 : topTruthy d.tb.top
  · have hd : resolveTbTop d = d := by
      unfold resolveTbTop
      rw [if_pos h1]
    rw [hd]
    unfold toplevelOf toplevelSpec
    by_cases h2 : optStrTruthy ctb.toplevel <;> simp [h2, h1]
  · have h2 : optStrTruthy d.rtl.top = true := by tauto
    obtain ⟨t, ht⟩ : ∃ t, d.rtl.top = some t := by
      cases hr : d.rtl.top with
      | none => rw [hr] at h2; exact absurd h2 (by simp [optStrTruthy])
      | some t => exact ⟨t, rfl⟩
    simp only [Bool.not_eq_true] at h1
    have htop2 : (resolveTbTop d).tb.top = TopSpec.seq [t] := by
      rw [resolveTbTop_top, if_neg (by simp [h1]), ht]
      rfl
    have hseq : topTruthy (TopSpec.seq [t]) = true := rfl
    have hfst : topFirst (TopSpec.seq [t]) = t := rfl
    unfold toplevelOf toplevelSpec
    rw [htop2, hseq, hfst, h1]
    by_cases h3 : optStrTruthy ctb.toplevel <;> simp [h3, ht]

/-! ### Concrete fixtures used by witnesses and counterexamples -/

/-- Default-like settings, matching the Python field defaults. -/
def cfgEx : CocotbSettings :=
  { coverage := false, reduced_log_fmt := true, results_xml := "results.xml",
    resolve_x := "VALUE_ERROR", testcase := [], random_seed := Option.none,
    gpi_extra := [] }

/-- An explicit `tb.cocotb.toplevel` with no `tb.top` / `rtl.top`. -/
def ctbC1 : CocotbTb := ⟨Option.none, some "t", []⟩

def dC1 : Design :=
  ⟨"d1", "/r", ⟨Option.none⟩,
    ⟨TopSpec.unset, [⟨"a.py", SourceType.cocotb⟩], some ctbC1⟩⟩

/-- An explicit `tb.cocotb.toplevel` together with a set `tb.top`. -/
def ctbC1w : CocotbTb := ⟨Option.none, some "T", []⟩

def dC1w : Design :=
  ⟨"d1w", "/r", ⟨Option.none⟩,
    ⟨TopSpec.seq ["x"], [⟨"a.py", SourceType.cocotb⟩], some ctbC1w⟩⟩

def ctbC4 : CocotbTb := ⟨Option.none, Option.none, []⟩

/-- Cocotb requested but `tb.sources` empty. -/
def dC4 : Design :=
  ⟨"d4", "/r", ⟨some "top"⟩, ⟨TopSpec.unset, [], some ctbC4⟩⟩

/-- A module name with a directory portion. -/
def ctbC6 : CocotbTb := ⟨some "pkg/mod", some "t", []⟩

def dC6 : Design :=
  ⟨"d6", "/r", ⟨Option.none⟩,
    ⟨TopSpec.str "t", [⟨"x.py", SourceType.other⟩], some ctbC6⟩⟩

def ctbC7 : CocotbTb := ⟨Option.none, Option.none, []⟩

/-- No module name, one cocotb-typed source among the testbench sources. -/
def dC7 : Design :=
  ⟨"d7", "/r", ⟨Option.none⟩,
    ⟨TopSpec.str "t",
      [⟨"rtl.v", SourceType.other⟩, ⟨"srcdir/tb_mod.py", SourceType.cocotb⟩],
      some ctbC7⟩⟩

def ctbC8 : CocotbTb := ⟨Option.none, Option.none, []⟩

/-- `tb.top` unset, `rtl.top` set: triggers the line-113 assignment. -/
def dC8 : Design :=
  ⟨"d8", "/r", ⟨some "top"⟩,
    ⟨TopSpec.unset, [⟨"a.py", SourceType.cocotb⟩], some ctbC8⟩⟩

/-- A design that does not request cocotb. -/
def dPlain : Design :=
  ⟨"d9", "/r", ⟨Option.none⟩, ⟨TopSpec.unset, [], Option.none⟩⟩

def ctbC10 : CocotbTb := ⟨Option.none, some "top", []⟩

/-- Cocotb active, no module name, no cocotb-typed source. -/
def dC10 : Design :=
  ⟨"d10", "/r", ⟨Option.none⟩,
    ⟨TopSpec.seq ["t"], [⟨"tb.v", SourceType.other⟩], some ctbC10⟩⟩

/-- A report whose aggregate counters record one error. -/
def rptEx : TestReport := ⟨3, 1, 0, 1, 5, []⟩

/-- A filesystem with no file at any path. -/
def fsEmpty : String → Option (Except ReportErr TestReport) := fun _ => Option.none

/-! ### Claims -/

/-- Claim C1, counterexample: on `dC1` the explicit `tb.cocotb.toplevel`
is set and truthy, yet `env` fails, because the code checks `tb.top` /
`rtl.top` (lines 108-112) before it ever reads `tb.cocotb.toplevel`
(line 139); the claim says derivation does not fail on toplevel
resolution when `tb.cocotb.toplevel` is set. -/
theorem env_toplevel_counterexample :
    dC1.tb.cocotb = some ctbC1 ∧ optStrTruthy ctbC1.toplevel = true ∧
    dC1.tb.top = TopSpec.unset ∧ dC1.rtl.top = Option.none ∧
    dC1.tb.sources ≠ [] ∧
    env cfgEx Option.none dC1 = Except.error EnvErr.noTop :=
  ⟨rfl, rfl, rfl, rfl, by decide, rfl⟩

/-- Claim C1, amended: with cocotb requested and `tb.sources` non-empty,
`env` fails on toplevel resolution if and only if `tb.top` and `rtl.top`
are both unavailable, regardless of `tb.cocotb.toplevel`; on success the
`TOPLEVEL` entry prefers the explicit `tb.cocotb.toplevel`, else the first
element of `tb.top`, else `rtl.top`, and `rtl.top` is written into
`tb.top` as a single-element sequence exactly when `tb.top` was unset. -/
theorem env_toplevel_precedence (cfg : CocotbSettings) (pp : Option String)
    (d : Design) (ctb : CocotbTb) (tbl : List (String × RVal)) (d2 : Design)
    (h : d.tb.cocotb = some ctb) (hs : d.tb.sources ≠ []) :
    (env cfg pp d = Except.error EnvErr.noTop ↔
      topTruthy d.tb.top = false ∧ optStrTruthy d.rtl.top = false) ∧
    (env cfg pp d = Except.ok (tbl, d2) →
      getKey tbl "TOPLEVEL" = some (optVal (toplevelSpec d ctb)) ∧
      d2.tb.top = (if topTruthy d.tb.top = true then d.tb.top
        else TopSpec.seq [d.rtl.top.getD ""])) := by
  constructor
  · constructor
    · intro he
      by_cases h1 : topTruthy d.tb.top
      · rw [env_ok cfg pp d ctb h hs (Or.inl h1)] at he
        exact absurd he (by simp)
      · by_cases h2 : optStrTruthy d.rtl.top
        · rw [env_ok cfg pp d ctb h hs (Or.inr h2)] at he
          exact absurd he (by simp)
        · exact ⟨by simpa using h1, by simpa using h2⟩
    · intro hb
      exact env_noTop cfg pp d ctb h hs hb.1 hb.2
  · intro he
    by_cases hsucc : topTruthy d.tb.top = true ∨ optStrTruthy d.rtl.top = true
    · rw [env_ok cfg pp d ctb h hs hsucc] at he
      have he2 : envTable cfg pp (resolveTbTop d) ctb = tbl ∧ resolveTbTop d = d2 := by
        have := he
        simp only [Except.ok.injEq, Prod.mk.injEq] at this
        exact this
      obtain ⟨hT, hD⟩ := he2
      subst hT
      subst hD
      exact ⟨by rw [envTable_TOPLEVEL, toplevelOf_resolve d ctb hsucc],
        resolveTbTop_top d⟩
    · push_neg at hsucc
      rw [env_noTop cfg pp d ctb h hs (by simpa using hsucc.1)
        (by simpa using hsucc.2)] at he
      exact absurd he (by simp)

/-- Claim C1, witness: the amended theorem applied to `dC1w`, whose
explicit `tb.cocotb.toplevel` takes precedence over the set `tb.top`. -/
theorem env_toplevel_precedence_witness :
    (env cfgEx Option.none dC1w = Except.error EnvErr.noTop ↔
      topTruthy dC1w.tb.top = false ∧ optStrTruthy dC1w.rtl.top = false) ∧
    (getKey (envTable cfgEx Option.none (resolveTbTop dC1w) ctbC1w) "TOPLEVEL" =
        some (optVal (toplevelSpec dC1w ctbC1w)) ∧
      (resolveTbTop dC1w).tb.top = (if topTruthy dC1w.tb.top = true then dC1w.tb.top
        else TopSpec.seq [dC1w.rtl.top.getD ""])) := by
  have hw := env_toplevel_precedence cfgEx Option.none dC1w ctbC1w
    (envTable cfgEx Option.none (resolveTbTop dC1w) ctbC1w) (resolveTbTop dC1w)
    rfl (by decide)
  exact ⟨hw.1, hw.2 rfl⟩

/-- Claim C2: `add_results` copies the report's aggregate counters
verbatim into the prefixed keys of the flow-results dict (for every
report, whatever its suites and cases hold), the returned flag is true
exactly when the report is not failed (`tests == 0`, `errors > 0` or
`failures > 0` each fail it), and the `success` key is set to `False`
exactly on failure and left absent otherwise. -/
theorem add_results_summary (xml : TestReport) (fr : List (String × RVal))
    (pfx : String) (h : getKey fr "success" = Option.none) :
    getKey (add_results xml fr pfx).1 (pfx ++ "tests") = some (RVal.int xml.tests) ∧
    getKey (add_results xml fr pfx).1 (pfx ++ "errors") = some (RVal.int xml.errors) ∧
    getKey (add_results xml fr pfx).1 (pfx ++ "failures") =
      some (RVal.int xml.failures) ∧
    getKey (add_results xml fr pfx).1 (pfx ++ "skipped") =
      some (RVal.int xml.skipped) ∧
    getKey (add_results xml fr pfx).1 (pfx ++ "time") = some (RVal.rat xml.time) ∧
    ((add_results xml fr pfx).2 = true ↔
      ¬(xml.tests = 0 ∨ 0 < xml.errors ∨ 0 < xml.failures)) ∧
    getKey (add_results xml fr pfx).1 "success" =
      (if (add_results xml fr pfx).2 = true then Option.none
       else some (RVal.bool false)) := by
  refine ⟨add_results_tests xml fr pfx, add_results_errors xml fr pfx,
    add_results_failures xml fr pfx, add_results_skipped xml fr pfx,
    add_results_time xml fr pfx, ?_, ?_⟩
  · rw [add_results_snd]
    simp only [Bool.not_eq_true', Bool.or_eq_false_iff, beq_eq_false_iff_ne,
      bne_eq_false_iff_eq, ne_eq]
    omega
  · rw [add_results_success, h]

/-- Claim C2, witness: the summary theorem applied to a concrete report
with one error: the counters are copied, the flag is false and the
`success` key is written as `False`. -/
theorem add_results_summary_witness :
    getKey [] "success" = Option.none ∧
    getKey (add_results rptEx [] "cocotb.").1 ("cocotb." ++ "tests") =
      some (RVal.int 3) ∧
    getKey (add_results rptEx [] "cocotb.").1 ("cocotb." ++ "errors") =
      some (RVal.int 1) ∧
    ((add_results rptEx [] "cocotb.").2 = true ↔
      ¬(rptEx.tests = 0 ∨ 0 < rptEx.errors ∨ 0 < rptEx.failures)) ∧
    getKey (add_results rptEx [] "cocotb.").1 "success" =
      (if (add_results rptEx [] "cocotb.").2 = true then Option.none
       else some (RVal.bool false)) := by
  have hw := add_results_summary rptEx [] "cocotb." rfl
  exact ⟨rfl, hw.1, hw.2.1, hw.2.2.2.2.2.1, hw.2.2.2.2.2.2⟩

/-- Claim C3: a path with no file on disk loads as the empty report with
no error; summarizing that empty report yields a false success flag, a
zero `tests` entry and a `success` entry of `False`. -/
theorem loadReport_missing (fs : String → Option (Except ReportErr TestReport))
    (p : String) (fr : List (String × RVal)) (pfx : String)
    (h : fs p = Option.none) :
    loadReport fs p = Except.ok emptyReport ∧
    (add_results emptyReport fr pfx).2 = false ∧
    getKey (add_results emptyReport fr pfx).1 (pfx ++ "tests") =
      some (RVal.int 0) ∧
    getKey (add_results emptyReport fr pfx).1 "success" =
      some (RVal.bool false) := by
  refine ⟨?_, rfl, add_results_tests emptyReport fr pfx, ?_⟩
  · unfold loadReport
    rw [h]
  · rw [add_results_success]
    rfl

/-- Claim C3, witness: the missing-file theorem applied to an empty
filesystem and the default results path. -/
theorem loadReport_missing_witness :
    fsEmpty "results.xml" = Option.none ∧
    loadReport fsEmpty "results.xml" = Except.ok emptyReport ∧
    (add_results emptyReport [] "cocotb.").2 = false ∧
    getKey (add_results emptyReport [] "cocotb.").1 ("cocotb." ++ "tests") =
      some (RVal.int 0) ∧
    getKey (add_results emptyReport [] "cocotb.").1 "success" =
      some (RVal.bool false) := by
  have hw := loadReport_missing fsEmpty "results.xml" [] "cocotb." rfl
  exact ⟨rfl, hw.1, hw.2.1, hw.2.2.1, hw.2.2.2⟩

/-- Claim C4: when cocotb is requested but `tb.sources` is empty, `env`
fails with the empty-sources configuration error. -/
theorem env_empty_sources_error (cfg : CocotbSettings) (pp : Option String)
    (d : Design) (ctb : CocotbTb) (h : d.tb.cocotb = some ctb)
    (hs : d.tb.sources = []) :
    env cfg pp d = Except.error EnvErr.emptySources := by
  unfold env
  rw [h, hs]
  rfl

/-- Claim C4, witness: the empty-sources theorem at a concrete design. -/
theorem env_empty_sources_error_witness :
    dC4.tb.cocotb = some ctbC4 ∧ dC4.tb.sources = [] ∧
    env cfgEx Option.none dC4 = Except.error EnvErr.emptySources :=
  ⟨rfl, rfl, env_empty_sources_error cfgEx Option.none dC4 ctbC4 rfl rfl⟩

/-- Claim C5: the validator turns the comma-separated string `"a, b,c"`
into `["a","b","c"]` (split on commas, segments stripped), leaves any
sequence input unchanged, and is idempotent. -/
theorem str_to_list_normalization :
    str_to_list (StrOrList.str "a, b,c") = ["a", "b", "c"] ∧
    (∀ l : List String, str_to_list (StrOrList.list l) = l) ∧
    (∀ v : StrOrList, str_to_list (StrOrList.list (str_to_list v)) = str_to_list v) :=
  ⟨rfl, fun _ => rfl, fun _ => rfl⟩

/-- The claim's search-path directory rule for a set `tb.cocotb.module`,
following the spec's words: split the module on `/`; with more than one
segment the directory portion joined with the platform separator, resolved
against the design root when not absolute; otherwise the design root. -/
def moduleDirSpec (rootPath m : String) : String :=
  let parts := pySplit m '/'
  if parts.length > 1 then
    let dir := joinSep "/" parts.dropLast
    if pyIsAbs dir then dir else pathJoin rootPath dir
  else rootPath

/-- Claim C6: with `tb.cocotb.module` set and truthy, the `MODULE` entry
is the last `/`-segment of the module name and the directory given by the
spec's splitting rule is on the search-path list that becomes
`PYTHONPATH`. -/
theorem env_module_split (cfg : CocotbSettings) (pp : Option String) (d : Design)
    (ctb : CocotbTb) (m : String) (h : d.tb.cocotb = some ctb)
    (hm : ctb.module = some m) (hne : m ≠ "") (hs : d.tb.sources ≠ [])
    (htop : topTruthy d.tb.top = true ∨ optStrTruthy d.rtl.top = true) :
    env cfg pp d =
      Except.ok (envTable cfg pp (resolveTbTop d) ctb, resolveTbTop d) ∧
    getKey (envTable cfg pp (resolveTbTop d) ctb) "MODULE" =
      some (RVal.str ((pySplit m '/').getLastD "")) ∧
    moduleDirSpec d.root_path m ∈ pyPathOf pp (resolveTbTop d) ctb ∧
    getKey (envTable cfg pp (resolveTbTop d) ctb) "PYTHONPATH" =
      some (RVal.str (joinSep ":" (pyPathOf pp (resolveTbTop d) ctb))) := by
  have hmt : moduleTruthy ctb = true := by
    simp [moduleTruthy, optStrTruthy, hm, hne]
  have hdir : moduleDirOf (resolveTbTop d) (ctb.module.getD "") =
      moduleDirSpec d.root_path m := by
    rw [hm]
    unfold moduleDirOf moduleDirSpec
    rw [resolveTbTop_root_path]
    rfl
  refine ⟨env_ok cfg pp d ctb h hs htop, ?_, ?_,
    envTable_PYTHONPATH cfg pp (resolveTbTop d) ctb⟩
  · rw [envTable_MODULE]
    simp [cocoModule, hmt, hm, optVal]
  · unfold pyPathOf
    rw [hmt, hdir]
    simp

/-- Claim C6, witness: on a design with module `"pkg/mod"` and root
`/r`, `MODULE` is `"mod"` and the search path contains `"/r/pkg"`. -/
theorem env_module_split_witness :
    env cfgEx Option.none dC6 =
      Except.ok (envTable cfgEx Option.none (resolveTbTop dC6) ctbC6,
        resolveTbTop dC6) ∧
    getKey (envTable cfgEx Option.none (resolveTbTop dC6) ctbC6) "MODULE" =
      some (RVal.str "mod") ∧
    "/r/pkg" ∈ pyPathOf Option.none (resolveTbTop dC6) ctbC6 ∧
    getKey (envTable cfgEx Option.none (resolveTbTop dC6) ctbC6) "PYTHONPATH" =
      some (RVal.str (joinSep ":" (pyPathOf Option.none (resolveTbTop dC6) ctbC6))) :=
  env_module_split cfgEx Option.none dC6 ctbC6 "pkg/mod" rfl rfl (by decide)
    (by decide) (Or.inl rfl)

/-- Claim C7: the search-path list behind `PYTHONPATH` is, in order, the
split of the process's current `PYTHONPATH`, then the module directory
when `tb.cocotb.module` is truthy, then the containing directory of the
top cocotb source whenever one exists (independently of the module rule);
and with `tb.cocotb.module` unset, `MODULE` is the stem of the top cocotb
source when one exists. -/
theorem env_pythonpath_assembly (cfg : CocotbSettings) (pp : Option String)
    (d : Design) (ctb : CocotbTb) (h : d.tb.cocotb = some ctb)
    (hs : d.tb.sources ≠ [])
    (htop : topTruthy d.tb.top = true ∨ optStrTruthy d.rtl.top = true) :
    env cfg pp d =
      Except.ok (envTable cfg pp (resolveTbTop d) ctb, resolveTbTop d) ∧
    pyPathOf pp (resolveTbTop d) ctb =
      currentPyPathSplit pp
      ++ (if moduleTruthy ctb = true
          then [moduleDirOf (resolveTbTop d) (ctb.module.getD "")] else [])
      ++ (match topCocotbSource d with
          | some f => [pathParent f]
          | _ => []) ∧
    getKey (envTable cfg pp (resolveTbTop d) ctb) "PYTHONPATH" =
      some (RVal.str (joinSep ":" (pyPathOf pp (resolveTbTop d) ctb))) ∧
    (ctb.module = Option.none → ∀ f, topCocotbSource d = some f →
      getKey (envTable cfg pp (resolveTbTop d) ctb) "MODULE" =
        some (RVal.str (pathStem f))) := by
  refine ⟨env_ok cfg pp d ctb h hs htop, ?_,
    envTable_PYTHONPATH cfg pp (resolveTbTop d) ctb, ?_⟩
  · unfold pyPathOf
    rw [topCocotbSource_resolve]
  · intro hm f hf
    rw [envTable_MODULE]
    simp [cocoModule, moduleTruthy, optStrTruthy, hm, topCocotbSource_resolve,
      hf, optVal]

/-- Claim C7, witness: with `PYTHONPATH=/a:/b`, no module name, and a
cocotb source `srcdir/tb_mod.py`, the search path is
`["/a", "/b", "srcdir"]` and `MODULE` is `"tb_mod"`. -/
theorem env_pythonpath_assembly_witness :
    env cfgEx (some "/a:/b") dC7 =
      Except.ok (envTable cfgEx (some "/a:/b") (resolveTbTop dC7) ctbC7,
        resolveTbTop dC7) ∧
    pyPathOf (some "/a:/b") (resolveTbTop dC7) ctbC7 = ["/a", "/b", "srcdir"] ∧
    getKey (envTable cfgEx (some "/a:/b") (resolveTbTop dC7) ctbC7) "PYTHONPATH" =
      some (RVal.str "/a:/b:srcdir") ∧
    getKey (envTable cfgEx (some "/a:/b") (resolveTbTop dC7) ctbC7) "MODULE" =
      some (RVal.str "tb_mod") := by
  have hw := env_pythonpath_assembly cfgEx (some "/a:/b") dC7 ctbC7 rfl
    (by decide) (Or.inl rfl)
  exact ⟨hw.1, hw.2.1, hw.2.2.1, hw.2.2.2 rfl "srcdir/tb_mod.py" rfl⟩

/-- Claim C8, counterexample: `env` is not free of side effects on the
design: on `dC8`, whose `tb.top` is unset and whose `rtl.top` is `"top"`,
the call returns with the design's `tb.top` changed from unset to the
one-element sequence `["top"]` (line 113 of the source). -/
theorem env_mutation_counterexample :
    dC8.tb.top = TopSpec.unset ∧
    (env cfgEx Option.none dC8).toOption.map (fun r => r.2.tb.top) =
      some (TopSpec.seq ["top"]) :=
  ⟨rfl, rfl⟩

/-- Claim C8, amended: `env` leaves every field of the design unchanged
except `tb.top`, which is rewritten to the one-element sequence holding
`rtl.top` exactly when `tb.top` was falsy on entry (the settings, being a
pure input, are untouched). -/
theorem env_frame_amended (cfg : CocotbSettings) (pp : Option String)
    (d : Design) (tbl : List (String × RVal)) (d2 : Design)
    (h : env cfg pp d = Except.ok (tbl, d2)) :
    d2.name = d.name ∧ d2.root_path = d.root_path ∧ d2.rtl = d.rtl ∧
    d2.tb.sources = d.tb.sources ∧ d2.tb.cocotb = d.tb.cocotb ∧
    (d2.tb.top = d.tb.top ∨
      (topTruthy d.tb.top = false ∧
        d2.tb.top = TopSpec.seq [d.rtl.top.getD ""])) := by
  have hd : d2 = d ∨ d2 = resolveTbTop d := by
    cases hc : d.tb.cocotb with
    | none =>
      simp only [env, hc] at h
      simp only [Except.ok.injEq, Prod.mk.injEq] at h
      exact Or.inl h.2.symm
    | some ctb =>
      simp only [env, hc] at h
      by_cases hse : d.tb.sources.isEmpty
      · rw [if_pos hse] at h
        exact absurd h (by simp)
      · rw [if_neg hse] at h
        by_cases hcond : (!topTruthy d.tb.top && !optStrTruthy d.rtl.top) = true
        · rw [if_pos hcond] at h
          exact absurd h (by simp)
        · rw [if_neg hcond] at h
          simp only [Except.ok.injEq, Prod.mk.injEq] at h
          exact Or.inr h.2.symm
  rcases hd with hd | hd
  · subst hd
    exact ⟨rfl, rfl, rfl, rfl, rfl, Or.inl rfl⟩
  · subst hd
    refine ⟨resolveTbTop_name d, resolveTbTop_root_path d, resolveTbTop_rtl d,
      resolveTbTop_sources d, resolveTbTop_cocotb d, ?_⟩
    by_cases h1 : topTruthy d.tb.top
    · exact Or.inl (by rw [resolveTbTop_top, if_pos h1])
    · simp only [Bool.not_eq_true] at h1
      exact Or.inr ⟨h1, by rw [resolveTbTop_top, if_neg (by simp [h1])]⟩

/-- Claim C8, witness: the amended frame theorem at `dC8`, where the
`tb.top` assignment actually happens. -/
theorem env_frame_amended_witness :
    (resolveTbTop dC8).name = dC8.name ∧
    (resolveTbTop dC8).root_path = dC8.root_path ∧
    (resolveTbTop dC8).rtl = dC8.rtl ∧
    (resolveTbTop dC8).tb.sources = dC8.tb.sources ∧
    (resolveTbTop dC8).tb.cocotb = dC8.tb.cocotb ∧
    ((resolveTbTop dC8).tb.top = dC8.tb.top ∨
      (topTruthy dC8.tb.top = false ∧
        (resolveTbTop dC8).tb.top = TopSpec.seq [dC8.rtl.top.getD ""])) :=
  env_frame_amended cfgEx Option.none dC8
    (envTable cfgEx Option.none (resolveTbTop dC8) ctbC8) (resolveTbTop dC8) rfl

/-- Claim C9: when the design does not request cocotb, `env` returns the
empty table (and the unchanged design), for every settings value, every
process `PYTHONPATH` and every other design field. -/
theorem env_no_cocotb (cfg : CocotbSettings) (pp : Option String) (d : Design)
    (h : d.tb.cocotb = Option.none) : env cfg pp d = Except.ok ([], d) := by
  unfold env
  rw [h]

/-- Claim C9, witness: the no-cocotb theorem at a concrete design. -/
theorem env_no_cocotb_witness :
    dPlain.tb.cocotb = Option.none ∧
    env cfgEx Option.none dPlain = Except.ok ([], dPlain) :=
  ⟨rfl, env_no_cocotb cfgEx Option.none dPlain rfl⟩

/-- Claim C10: with cocotb active, `tb.cocotb.module` unset and no
cocotb-typed source, `env` still succeeds and the `MODULE` entry holds
the `None` value, not a string. -/
theorem env_module_none (cfg : CocotbSettings) (pp : Option String) (d : Design)
    (ctb : CocotbTb) (h : d.tb.cocotb = some ctb)
    (hm : ctb.module = Option.none) (hsrc : topCocotbSource d = Option.none)
    (hs : d.tb.sources ≠ [])
    (htop : topTruthy d.tb.top = true ∨ optStrTruthy d.rtl.top = true) :
    env cfg pp d =
      Except.ok (envTable cfg pp (resolveTbTop d) ctb, resolveTbTop d) ∧
    getKey (envTable cfg pp (resolveTbTop d) ctb) "MODULE" =
      some RVal.pynone := by
  refine ⟨env_ok cfg pp d ctb h hs htop, ?_⟩
  rw [envTable_MODULE]
  simp [cocoModule, moduleTruthy, optStrTruthy, hm, topCocotbSource_resolve,
    hsrc, optVal]

/-- Claim C10, witness: the `MODULE`-is-`None` theorem at a concrete
design with one non-cocotb source. -/
theorem env_module_none_witness :
    dC10.tb.cocotb = some ctbC10 ∧ ctbC10.module = Option.none ∧
    topCocotbSource dC10 = Option.none ∧
    env cfgEx Option.none dC10 =
      Except.ok (envTable cfgEx Option.none (resolveTbTop dC10) ctbC10,
        resolveTbTop dC10) ∧
    getKey (envTable cfgEx Option.none (resolveTbTop dC10) ctbC10) "MODULE" =
      some RVal.pynone := by
  have hw := env_module_none cfgEx Option.none dC10 ctbC10 rfl rfl rfl
    (by decide) (Or.inl rfl)
  exact ⟨rfl, rfl, rfl, hw.1, hw.2⟩
